import Mathlib

/-!
Verification development for the babbage-kvstore repository.

The repository stores key-value pairs as spendable PushDrop token outputs.
We shallowly embed the two current implementations that the claims cite:

* `LocalKVStore` — `src/src/LocalKVStore.ts`, the consolidated TypeScript
  engine (`get` / `set` / `remove`).  Wallet interactions are modelled by a
  structure of response functions (`KVEnv`), and every operation returns,
  next to its result, the ordered list of wallet calls it issued
  (`List WalletCall`), so that frame and effect properties are provable.
* `kvstore.js` — the legacy overlay-backed variant (`set` / `remove` and the
  inline history walk of `findFromOverlay`).
* `Historian` — `src/unnamed/part_000`, the lineage reconstructor
  (`interpret` / `decodeTokenValue`).

Machine-level details that the claims do not touch (hex encodings, BEEF
serialization, ECDSA) are abstracted as opaque response functions carried by
the environment structures; control flow, branch conditions, error messages
and the order of external calls are translated directly from the source.
-/

namespace KVStore

/-- Arguments of `wallet.listOutputs` (basket, tags, include level). -/
structure ListOutputsArgs where
  basket : String
  tags : List String
  includeLevel : String
  deriving Repr, DecidableEq

/-- One output returned by `wallet.listOutputs`.  `lockingScript` is optional
because the wallet only populates it when `include: 'locking scripts'` is
requested (the TS code uses the non-null assertion `lockingScript!`). -/
structure WalletOutput where
  outpoint : String
  lockingScript : Option String
  deriving Repr, DecidableEq

/-- Result of `wallet.listOutputs`: the outputs, the reported total and the
BEEF bytes of the enclosing transactions. -/
structure ListOutputsResult where
  outputs : List WalletOutput
  totalOutputs : Nat
  BEEF : List Nat
  deriving Repr, DecidableEq

/-- One entry of the `inputs` array passed to `wallet.createAction`
(`CreateActionInput` in the TS source). -/
structure CreateActionInput where
  outpoint : String
  unlockingScriptLength : Nat
  inputDescription : String
  deriving Repr, DecidableEq

/-- One entry of the `outputs` array passed to `wallet.createAction`. -/
structure ActionOutput where
  lockingScript : String
  satoshis : Nat
  outputDescription : String
  deriving Repr, DecidableEq

/-- Arguments of `wallet.createAction`.  `remove` passes no `outputs` key at
all; we model the absent key as the empty list (no output is created either
way).  `inputBEEF = none` models the no-input creation action, which passes
no `inputBEEF`/`inputs` keys. -/
structure CreateActionArgs where
  description : String
  inputBEEF : Option (List Nat)
  inputs : List CreateActionInput
  outputs : List ActionOutput
  deriving Repr, DecidableEq

/-- The signable draft inside a `createAction` result. -/
structure SignableTransaction where
  tx : List Nat
  reference : String
  deriving Repr, DecidableEq

/-- Result of `wallet.createAction`: a `txid` (used by the no-input creation
branch) and optionally a signable draft (used by the consolidation branch;
when the wallet omits it, the TS property access `signableTransaction.tx`
throws, which the surrounding `try` catches). -/
structure CreateActionResult where
  txid : String
  signableTransaction : Option SignableTransaction
  deriving Repr, DecidableEq

/-- Arguments of `wallet.signAction`: the draft reference plus the per-input
spends, modelled as (input index, unlocking script hex) pairs in the order
the TS loop inserts them. -/
structure SignActionArgs where
  reference : String
  spends : List (Nat × String)
  deriving Repr, DecidableEq

/-- Result of `wallet.signAction`. -/
structure SignActionResult where
  txid : String
  deriving Repr, DecidableEq

/-- Arguments of `wallet.relinquishOutput`. -/
structure RelinquishArgs where
  output : String
  basket : String
  deriving Repr, DecidableEq

/-- Arguments of `wallet.encrypt` (protocolID `[2, context]`, keyID, data). -/
structure EncryptArgs where
  protocolID : Nat × String
  keyID : String
  plaintext : List Nat
  deriving Repr, DecidableEq

/-- Arguments of `wallet.decrypt`. -/
structure DecryptArgs where
  protocolID : Nat × String
  keyID : String
  ciphertext : List Nat
  deriving Repr, DecidableEq

/-- One call issued against the wallet, in issue order.  `pushdrop.lock`,
`pushdrop.unlock(...).sign` and `Transaction.fromAtomicBEEF` are codec /
SDK operations, not direct `this.wallet.*` calls, so they do not appear in
the trace. -/
inductive WalletCall where
  | listOutputs (args : ListOutputsArgs)
  | encrypt (args : EncryptArgs)
  | decrypt (args : DecryptArgs)
  | createAction (args : CreateActionArgs)
  | signAction (args : SignActionArgs)
  | relinquishOutput (args : RelinquishArgs)
  deriving Repr, DecidableEq

/-- A wallet call that mutates wallet/ledger state: creating an action,
signing (submitting) a spend, or relinquishing a tracked output.
`listOutputs`, `encrypt` and `decrypt` are read-only / pure-crypto calls. -/
def WalletCall.isMutating : WalletCall → Bool
  | .createAction _ => true
  | .signAction _ => true
  | .relinquishOutput _ => true
  | .listOutputs _ => false
  | .encrypt _ => false
  | .decrypt _ => false

/-- Environment of external collaborators for `LocalKVStore`: the wallet's
response behaviour plus the PushDrop codec and byte/string conversions.
Fallible collaborator calls return `Except String`, a thrown JS error being
the `.error` case. -/
structure KVEnv where
  listOutputs : ListOutputsArgs → ListOutputsResult
  encrypt : EncryptArgs → Except String (List Nat)
  decrypt : DecryptArgs → Except String (List Nat)
  createAction : CreateActionArgs → Except String CreateActionResult
  signAction : SignActionArgs → Except String SignActionResult
  relinquishOutput : RelinquishArgs → Except String Unit
  /-- `pushdrop.lock(fields, [2, context], key, 'self')` as a hex string. -/
  lock : List (List Nat) → Nat × String → String → String
  /-- `Transaction.fromAtomicBEEF`; the result is an opaque tx handle. -/
  fromAtomicBEEF : List Nat → Except String String
  /-- `pushdrop.unlock([2, context], key, 'self').sign(tx, i)` as hex. -/
  unlockSign : String → Nat → Except String String
  /-- `PushDrop.decode(LockingScript.fromHex s)).fields`; `none` models any
  decode throw (including a malformed hex string). -/
  pushDropDecode : String → Option (List (List Nat))
  /-- `Utils.toArray(s, 'utf8')`. -/
  toArray : String → List Nat
  /-- `Utils.toUTF8 bytes`. -/
  toUTF8 : List Nat → String

/-- Error message thrown by `get` on more than one live token
(LocalKVStore.ts line 30). -/
def ambiguousMsg : String :=
  "Multiple tokens found for this key. You need to call set to collapse this ambiguous state before you can get this value again."

/-- Error message thrown by `get` when the single token fails to decode or
has the wrong field count (LocalKVStore.ts line 40; the original message
interpolates the outpoint and basket, which we elide). -/
def corruptMsg : String :=
  "Invalid value found. You need to call set to collapse the corrupted state before you can get this value again."

/-- LocalKVStore.ts lines 32-41: decode the single located output's locking
script and require exactly one field; any decode throw, a missing locking
script, or a wrong field count all land in the catch and yield the corrupt
signal.  Returns field 0 on success. -/
def decodeSingle (env : KVEnv) (o : WalletOutput) : Option (List Nat) :=
  match o.lockingScript with
  | none => none
  | some hex =>
    match env.pushDropDecode hex with
    | none => none
    | some fields => if fields.length = 1 then fields.head? else none

/-- `localKVStore.get` (LocalKVStore.ts lines 21-52), returning the result
(`.ok` = normal return, `.error` = thrown) together with the ordered trace
of wallet calls issued. -/
def get (env : KVEnv) (ctx : String) (enc : Bool) (key : String)
    (defaultValue : Option String) : Except String (Option String) × List WalletCall :=
  let largs : ListOutputsArgs := ⟨ctx, [key], "locking scripts"⟩
  let results := env.listOutputs largs
  let pre : List WalletCall := [WalletCall.listOutputs largs]
  match results.outputs with
  | [] => (.ok defaultValue, pre)
  | _ :: _ :: _ => (.error ambiguousMsg, pre)
  | [o] =>
    match decodeSingle env o with
    | none => (.error corruptMsg, pre)
    | some field0 =>
      if enc = false then
        (.ok (some (env.toUTF8 field0)), pre)
      else
        let dargs : DecryptArgs := ⟨(2, ctx), key, field0⟩
        match env.decrypt dargs with
        | .error e => (.error e, pre ++ [WalletCall.decrypt dargs])
        | .ok plaintext => (.ok (some (env.toUTF8 plaintext)), pre ++ [WalletCall.decrypt dargs])

/-- The `createAction` arguments of `set`'s consolidation branch
(LocalKVStore.ts lines 78-99): one input per located output, and exactly one
output carrying the new locking script. -/
def consolidationArgs (ctx key lockHex : String) (results : ListOutputsResult) :
    CreateActionArgs :=
  { description := "Update " ++ key ++ " in " ++ ctx
    inputBEEF := some results.BEEF
    inputs := results.outputs.map (fun o => ⟨o.outpoint, 74, "Previous key-value token"⟩)
    outputs := [⟨lockHex, 1, "Key-value token"⟩] }

/-- The `createAction` arguments of `remove`'s consolidation spend
(LocalKVStore.ts lines 153-169): same inputs, but no `outputs` key. -/
def removalArgs (ctx key : String) (results : ListOutputsResult) :
    CreateActionArgs :=
  { description := "Update " ++ key ++ " in " ++ ctx
    inputBEEF := some results.BEEF
    inputs := results.outputs.map (fun o => ⟨o.outpoint, 74, "Previous key-value token"⟩)
    outputs := [] }

/-- The `createAction` arguments of `set`'s no-input creation action
(LocalKVStore.ts lines 127-138). -/
def newTokenArgs (ctx key lockHex : String) : CreateActionArgs :=
  { description := "Set " ++ key ++ " in " ++ ctx
    inputBEEF := none
    inputs := []
    outputs := [⟨lockHex, 1, "Key-value token"⟩] }

/-- The per-input signing loop (LocalKVStore.ts lines 101-112): for each
input index produce an unlocking script; any sign failure aborts with the
thrown error. -/
def buildSpends (env : KVEnv) (tx : String) : List Nat → Except String (List (Nat × String))
  | [] => .ok []
  | i :: rest =>
    match env.unlockSign tx i with
    | .error e => .error e
    | .ok us =>
      match buildSpends env tx rest with
      | .error e => .error e
      | .ok tail => .ok ((i, us) :: tail)

/-- The body of the `try` block shared by `set`'s consolidation branch and
`remove` (LocalKVStore.ts lines 86-116 and 161-187): create the signable
action, derive the tx from its atomic BEEF, sign every input, submit.  The
result is the raw `txid` (callers append `".0"`); any failure is the thrown
error, with the trace still recording the wallet calls actually issued. -/
def attemptSpend (env : KVEnv) (cargs : CreateActionArgs) (n : Nat) :
    Except String String × List WalletCall :=
  match env.createAction cargs with
  | .error e => (.error e, [WalletCall.createAction cargs])
  | .ok car =>
    match car.signableTransaction with
    | none =>
      (.error "TypeError: cannot read properties of undefined", [WalletCall.createAction cargs])
    | some st =>
      match env.fromAtomicBEEF st.tx with
      | .error e => (.error e, [WalletCall.createAction cargs])
      | .ok tx =>
        match buildSpends env tx (List.range n) with
        | .error e => (.error e, [WalletCall.createAction cargs])
        | .ok spends =>
          let sargs : SignActionArgs := ⟨st.reference, spends⟩
          match env.signAction sargs with
          | .error e => (.error e, [WalletCall.createAction cargs, WalletCall.signAction sargs])
          | .ok sres => (.ok sres.txid, [WalletCall.createAction cargs, WalletCall.signAction sargs])

/-- The catch-block loop of `set` and `remove` (LocalKVStore.ts lines
119-124 and 189-194): relinquish every located output in order.  A failing
`relinquishOutput` call rethrows out of the catch block, aborting the loop. -/
def relinquishAll (env : KVEnv) (ctx : String) :
    List WalletOutput → Except String Unit × List WalletCall
  | [] => (.ok (), [])
  | o :: rest =>
    let rargs : RelinquishArgs := ⟨o.outpoint, ctx⟩
    match env.relinquishOutput rargs with
    | .error e => (.error e, [WalletCall.relinquishOutput rargs])
    | .ok _ =>
      ((relinquishAll env ctx rest).1,
       WalletCall.relinquishOutput rargs :: (relinquishAll env ctx rest).2)

/-- LocalKVStore.ts lines 55-63: encode the value to UTF-8 bytes and, when
encryption is on, replace them with `wallet.encrypt`'s ciphertext. -/
def encryptValue (env : KVEnv) (ctx : String) (enc : Bool) (key : String)
    (valueAsArray : List Nat) : Except String (List Nat) × List WalletCall :=
  if enc then
    let eargs : EncryptArgs := ⟨(2, ctx), key, valueAsArray⟩
    (env.encrypt eargs, [WalletCall.encrypt eargs])
  else
    (.ok valueAsArray, [])

/-- `localKVStore.set` (LocalKVStore.ts lines 54-140).  When tokens exist,
the consolidation spend is attempted; on any failure within the `try` the
located outputs are relinquished and control falls through to the no-input
creation action, whose outpoint is returned. -/
def set (env : KVEnv) (ctx : String) (enc : Bool) (key value : String) :
    Except String String × List WalletCall :=
  match encryptValue env ctx enc key (env.toArray value) with
  | (.error e, t) => (.error e, t)
  | (.ok v2, encT) =>
    let lockHex := env.lock [v2] (2, ctx) key
    let largs : ListOutputsArgs := ⟨ctx, [key], "entire transactions"⟩
    let results := env.listOutputs largs
    let pre := encT ++ [WalletCall.listOutputs largs]
    if results.totalOutputs ≠ 0 then
      match attemptSpend env (consolidationArgs ctx key lockHex results) results.outputs.length with
      | (.ok txid, t) => (.ok (txid ++ ".0"), pre ++ t)
      | (.error _, t) =>
        match relinquishAll env ctx results.outputs with
        | (.error e, rt) => (.error e, pre ++ t ++ rt)
        | (.ok _, rt) =>
          match env.createAction (newTokenArgs ctx key lockHex) with
          | .error e => (.error e, pre ++ t ++ rt ++ [WalletCall.createAction (newTokenArgs ctx key lockHex)])
          | .ok car =>
            (.ok (car.txid ++ ".0"), pre ++ t ++ rt ++ [WalletCall.createAction (newTokenArgs ctx key lockHex)])
    else
      match env.createAction (newTokenArgs ctx key lockHex) with
      | .error e => (.error e, pre ++ [WalletCall.createAction (newTokenArgs ctx key lockHex)])
      | .ok car => (.ok (car.txid ++ ".0"), pre ++ [WalletCall.createAction (newTokenArgs ctx key lockHex)])

/-- `localKVStore.remove` (LocalKVStore.ts lines 142-196).  Zero located
tokens is an immediate plain return (`.ok none`); otherwise the removal
spend is attempted and, on failure, the located outputs are relinquished
and the method completes returning `undefined` (`.ok none`). -/
def remove (env : KVEnv) (ctx key : String) :
    Except String (Option String) × List WalletCall :=
  let largs : ListOutputsArgs := ⟨ctx, [key], "entire transactions"⟩
  let results := env.listOutputs largs
  let pre : List WalletCall := [WalletCall.listOutputs largs]
  if results.totalOutputs = 0 then
    (.ok none, pre)
  else
    match attemptSpend env (removalArgs ctx key results) results.outputs.length with
    | (.ok txid, t) => (.ok (some (txid ++ ".0")), pre ++ t)
    | (.error _, t) =>
      match relinquishAll env ctx results.outputs with
      | (.error e, rt) => (.error e, pre ++ t ++ rt)
      | (.ok _, rt) => (.ok none, pre ++ t ++ rt)

/-- The `createAction` argument lists appearing in a trace, in order. -/
def createActionCalls : List WalletCall → List CreateActionArgs
  | [] => []
  | .createAction a :: rest => a :: createActionCalls rest
  | _ :: rest => createActionCalls rest

/-- The `relinquishOutput` argument lists appearing in a trace, in order. -/
def relinquishCalls : List WalletCall → List RelinquishArgs
  | [] => []
  | .relinquishOutput a :: rest => a :: relinquishCalls rest
  | _ :: rest => relinquishCalls rest

/-- The `signAction` argument lists appearing in a trace, in order. -/
def signActionCalls : List WalletCall → List SignActionArgs
  | [] => []
  | .signAction a :: rest => a :: signActionCalls rest
  | _ :: rest => signActionCalls rest

end KVStore

namespace Historian

/-!
Embedding of the lineage reconstructor `Historian` (`src/unnamed/part_000`).

A BRC-8 ancestry envelope is a transaction record whose `inputs` object may
recursively embed the envelopes of the transactions that funded its inputs.
`inputs` is either absent (`none`) or an object whose values we keep as a
list in `Object.values` order; JSON-string-encoded `inputs` are assumed to
arrive already parsed (lines 20-22 normalize them on entry).

JS exceptions are modelled as `Except JsErr`; a caught-and-swallowed
exception is `Option.none` at the swallowing site.
-/

/-- A thrown JS error: message plus the optional `code` property the source
attaches. -/
structure JsErr where
  message : String
  code : Option String
  deriving Repr, DecidableEq

/-- A recursive BRC-8 ancestry envelope node: its own output script plus the
optionally-present embedded input envelopes. -/
inductive Envelope where
  | mk (outputScript : String) (inputs : Option (List Envelope))

/-- The envelope's own output script. -/
def Envelope.outputScript : Envelope → String
  | .mk s _ => s

/-- The envelope's embedded input envelopes, `none` when absent. -/
def Envelope.inputs : Envelope → Option (List Envelope)
  | .mk _ i => i

/-- A successful `pushdrop.decode` result: the locking public key, the field
list (field values kept as strings; field 1 is the stored value) and the
signature string. -/
structure DecodedToken where
  lockingPublicKey : String
  fields : List String
  signature : String
  deriving Repr, DecidableEq

/-- The `Historian` instance state together with its crypto collaborators:
the expected owner and signing keys, the user-supplied `validate` predicate
(defaulting to always-true), `pushdrop.decode` (`none` models a decode
throw), the SHA-256 digest of the concatenated fields, and ECDSA
verification.  A malformed signature string (a `Signature.fromString`
throw) is modelled by `verifySig` returning `false`, which lands in the
same catch. -/
structure Ctx where
  correctOwnerKey : String
  correctSigningKey : String
  validate : String → Bool
  decode : String → Option DecodedToken
  digestFields : List String → String
  verifySig : String → String → String → Bool

/-- `Historian.decodeTokenValue` (part_000 lines 56-82): decode the
envelope's output script, require the owner key to match and the signature
to verify over the digest of the fields, and return field 1; every failure
(including a missing field 1, whose `undefined.toString()` throws) is
swallowed by the catch and yields `none`. -/
def decodeTokenValue (h : Ctx) (e : Envelope) : Option String :=
  match h.decode e.outputScript with
  | none => none
  | some d =>
    if d.lockingPublicKey ≠ h.correctOwnerKey then none
    else if h.verifySig (h.digestFields d.fields) d.signature h.correctSigningKey = false then none
    else d.fields.get? 1

/-- The `TypeError` raised by part_000 line 29: the constructor stores the
validation predicate as `this.validate`, but the depth-0 branch calls
`this.isValid`, which is `undefined`. -/
def isValidTypeError : JsErr :=
  ⟨"this.isValid is not a function", none⟩

/-- Part_000 lines 26-32: at depth 0 the root's own token value is decoded
and, when truthy (a nonempty string), `this.isValid(tokenValue)` is
evaluated — which throws, `isValid` being undefined on the class.  An empty
string is falsy, so the call (and the throw) is skipped. -/
def headStep (h : Ctx) (e : Envelope) (currentDepth : Nat) : Except JsErr (List String) :=
  if currentDepth = 0 then
    match decodeTokenValue h e with
    | some tv => if tv ≠ "" then .error isValidTypeError else .ok []
    | none => .ok []
  else .ok []

mutual

/-- `Historian.interpret` (part_000 lines 18-54): handle the root value at
depth 0, return `[]` at an absent or empty input set (line 36 — note this
discards `valueHistory`), and otherwise fold over the input envelopes. -/
def interpret (h : Ctx) : Envelope → Nat → Except JsErr (List String)
  | .mk s inputs, currentDepth =>
    match headStep h (.mk s inputs) currentDepth with
    | .error err => .error err
    | .ok valueHistory0 =>
      match inputs with
      | none => .ok []
      | some l =>
        if l.length = 0 then .ok []
        else
          match interpretInputs h l currentDepth with
          | .error err => .error err
          | .ok rest => .ok (valueHistory0 ++ rest)
termination_by e _ => sizeOf e
decreasing_by all_goals (simp_wf; try omega)

/-- The loop of part_000 lines 40-49: for each input envelope, append its
decoded-and-validated value (a truthy decode plus a passing `validate`),
then append the recursive interpretation of that envelope at depth + 1. -/
def interpretInputs (h : Ctx) (l : List Envelope) (currentDepth : Nat) :
    Except JsErr (List String) :=
  match l with
  | [] => .ok []
  | ie :: tl =>
    let cur : List String :=
      match decodeTokenValue h ie with
      | some tv => if tv ≠ "" ∧ h.validate tv then [tv] else []
      | none => []
    match interpret h ie (currentDepth + 1) with
    | .error err => .error err
    | .ok prev =>
      match interpretInputs h tl currentDepth with
      | .error err => .error err
      | .ok rest => .ok (cur ++ prev ++ rest)
termination_by sizeOf l
decreasing_by all_goals (simp_wf; try omega)

end

end Historian

namespace Legacy

/-!
Embedding of the legacy overlay-backed variant `src/kvstore.js`.

`set` (lines 231-313) and `remove` (lines 323-364) are modelled as functions
of the located token list (the `existingTokens` the code obtains from
`findFromOverlay`) that produce the Babbage action they would submit, or the
thrown error.  `pushdrop.redeem` and `pushdrop.create` are abstracted as
environment functions; the claims under verification concern which located
tokens the produced action consumes.

The history walk embedded in `findFromOverlay` (lines 92-125) is modelled
fuel-indexed, because — as proved below — the source loop does not
terminate on ancestry chains that end in an absent or empty input set.
-/

/-- A located kvstore token as `findFromOverlay` surfaces it. -/
structure KVToken where
  txid : String
  vout : Nat
  outputScript : String
  satoshis : Nat
  deriving Repr, DecidableEq

/-- A thrown JS error: message plus the `code` property kvstore.js sets. -/
structure JsErr where
  message : String
  code : Option String
  deriving Repr, DecidableEq

/-- One redeemed input of a Babbage `createAction` call: the consumed
token's txid, output index and unlocking script. -/
structure LegacyInput where
  txid : String
  vout : Nat
  unlockingScript : String
  deriving Repr, DecidableEq

/-- One output of a Babbage `createAction` call. -/
structure LegacyOutput where
  satoshis : Nat
  script : String
  deriving Repr, DecidableEq

/-- The action `set`/`remove` hand to `SDK.createAction` and then submit to
the overlay. -/
structure LegacyAction where
  description : String
  inputs : List LegacyInput
  outputs : List LegacyOutput
  deriving Repr, DecidableEq

/-- Collaborators of the legacy module: `pushdrop.redeem` (the unlocking
script for a given token) and `pushdrop.create` (the new locking script for
the given fields). -/
structure Env where
  redeem : KVToken → String → String
  create : List String → String → String
  protectedKeyCreating : String

/-- `kvstore.js set` (lines 231-313), given the located `existingTokens`.
With at least one existing token, only the *last* located token is redeemed
as the single input of the update action (line 244:
`existingTokens[existingTokens.length - 1]`); the rest are left unspent.
With none, a no-input creation action is produced.  The contradictory
routing flags throw before anything else (lines 233-237). -/
def kvSet (env : Env) (key value : String) (existingTokens : List KVToken)
    (sendToCounterparty receiveFromCounterparty : Bool) :
    Except JsErr LegacyAction :=
  if sendToCounterparty ∧ receiveFromCounterparty then
    .error ⟨"sendToCounterparty and receiveFromCounterparty cannot both be true at the same time.",
            some "ERR_NO_SEND_AND_RECEIVE_AT_SAME_TIME"⟩
  else
    match existingTokens.getLast? with
    | some kvstoreToken =>
      .ok { description := "Update the value for " ++ key
            inputs := [⟨kvstoreToken.txid, kvstoreToken.vout, env.redeem kvstoreToken key⟩]
            outputs := [⟨1000, env.create [env.protectedKeyCreating, value] key⟩] }
    | none =>
      .ok { description := "Set a value for " ++ key
            inputs := []
            outputs := [⟨1000, env.create [env.protectedKeyCreating, value] key⟩] }

/-- `kvstore.js remove` (lines 323-364), given the located `existingTokens`.
Zero located tokens throws `ERR_NO_TOKEN` (lines 327-331); otherwise the
*first* located token is redeemed as the single input of a no-output
deletion action. -/
def kvRemove (env : Env) (key : String) (existingTokens : List KVToken) :
    Except JsErr LegacyAction :=
  match existingTokens with
  | [] =>
    .error ⟨"The item did not exist, no item was deleted.", some "ERR_NO_TOKEN"⟩
  | kvstoreToken :: _ =>
    .ok { description := "Delete the value for " ++ key
          inputs := [⟨kvstoreToken.txid, kvstoreToken.vout, env.redeem kvstoreToken key⟩]
          outputs := [] }

end Legacy

namespace Overlay

/-!
The inline ancestry walk of `findFromOverlay` (kvstore.js lines 92-125).

JS state of the loop variable `currentInput`: `undefined`, a string, or an
object whose values are ancestry nodes.  The loop guard is
`Object.keys(currentInput) !== [] && typeof currentInput !== 'string'`;
the first conjunct compares an array against a fresh array *by reference*
and is therefore always `true` when it evaluates, so only a string state
exits the loop normally — but when `currentInput` is `undefined`, the guard
itself throws (`Object.keys(undefined)` is a TypeError), and the guard sits
outside the `try`, so that exception propagates out of `findFromOverlay`
uncaught.  The body processes `Object.values(currentInput)[0]` inside
`try { ... } catch (e) { continue }`; every throw *inside the body* leaves
`currentInput` unchanged, so a body-throwing state (such as the empty
object) repeats forever.
-/

/-- A parsed ancestry transaction: its output scripts. -/
structure OverlayTx where
  outputs : List String
  deriving Repr, DecidableEq

mutual

/-- The JS value held by `currentInput` across iterations. -/
inductive JsInputs where
  | undef
  | str (s : String)
  | nodes (l : List OverlayNode)

/-- One ancestry node (one value of an `inputs` object): its raw
transaction (`none` when `new bsv.Transaction(rawTx)` would throw) and its
own `inputs` value. -/
inductive OverlayNode where
  | mk (rawTx : Option OverlayTx) (inputs : JsInputs)

end

/-- The raw transaction of a node. -/
def OverlayNode.rawTx : OverlayNode → Option OverlayTx
  | .mk t _ => t

/-- The `inputs` value of a node. -/
def OverlayNode.inputs : OverlayNode → JsInputs
  | .mk _ i => i

/-- One successful pass through the loop body (kvstore.js lines 96-121) for
node `data`: parse its raw tx, decode output 0, require the owner key and
the signature, and return field 1.  `none` is any throw in the body, which
the `catch` turns into `continue`. -/
def step (h : Historian.Ctx) (data : OverlayNode) : Option String :=
  match data.rawTx with
  | none => none
  | some tx =>
    match tx.outputs.head? with
    | none => none
    | some script0 =>
      match h.decode script0 with
      | none => none
      | some d =>
        if d.lockingPublicKey ≠ h.correctOwnerKey then none
        else if h.verifySig (h.digestFields d.fields) d.signature h.correctSigningKey = false then none
        else d.fields.get? 1

/-- The fuel-indexed walk: `some outcome` when the loop finishes within
`fuel` guard evaluations — `.ok acc` for the normal exit on a string-valued
`currentInput`, `.error` for the uncaught TypeError the guard itself throws
when `currentInput` is `undefined` (`Object.keys(undefined)`, kvstore.js
line 94, outside the `try`) — and `none` when the fuel runs out.  Each
iteration mirrors one pass of the `while` loop: an empty object makes the
body throw (`Object.values({})[0]` is `undefined`, so `data.rawTx` is a
TypeError) which the `catch` turns into `continue` with unchanged state;
otherwise the first node is processed, a successful pass appends its value
and advances to `data.inputs`, and any body throw continues with unchanged
state. -/
def walkF (h : Historian.Ctx) :
    Nat → JsInputs → List String → Option (Except Legacy.JsErr (List String))
  | 0, _, _ => none
  | _ + 1, .str _, acc => some (.ok acc)
  | _ + 1, .undef, _ =>
    some (.error ⟨"Cannot convert undefined or null to object", none⟩)
  | fuel + 1, .nodes [], acc => walkF h fuel (.nodes []) acc
  | fuel + 1, .nodes (data :: tl), acc =>
    match step h data with
    | none => walkF h fuel (.nodes (data :: tl)) acc
    | some v => walkF h fuel data.inputs (acc ++ [v])

end Overlay

namespace Historian

/-- `sub` occurs as a node of the envelope tree rooted at `e` (the root
itself, or recursively a node of one of the embedded input envelopes). -/
inductive IsNodeOf : Envelope → Envelope → Prop where
  | refl (e : Envelope) : IsNodeOf e e
  | child {sub c : Envelope} (s : String) {l : List Envelope} :
      c ∈ l → IsNodeOf sub c → IsNodeOf sub (.mk s (some l))

end Historian

namespace Fixtures

/-!
Concrete wallet behaviours, tokens and envelopes used to evaluate the
operational models on specific runs (counterexamples and witnesses).
-/

/-- First located live token output. -/
def out1 : KVStore.WalletOutput := ⟨"failTxId1.0", some "s1"⟩

/-- Second located live token output. -/
def out2 : KVStore.WalletOutput := ⟨"failTxId2.1", some "s2"⟩

/-- A wallet behaviour on which every call succeeds and two live tokens are
located for any key. -/
def envOk : KVStore.KVEnv :=
  { listOutputs := fun _ => ⟨[out1, out2], 2, [7]⟩
    encrypt := fun a => .ok a.plaintext
    decrypt := fun a => .ok a.ciphertext
    createAction := fun _ => .ok ⟨"createTx", some ⟨[9], "ref1"⟩⟩
    signAction := fun _ => .ok ⟨"newTx"⟩
    relinquishOutput := fun _ => .ok ()
    lock := fun _ _ _ => "lockhex"
    fromAtomicBEEF := fun _ => .ok "txobj"
    unlockSign := fun _ _ => .ok "unlockhex"
    pushDropDecode := fun _ => some [[104]]
    toArray := fun _ => [7]
    toUTF8 := fun _ => "decoded" }

/-- The same wallet behaviour, except that `signAction` rejects (a competing
writer spent one of the inputs first). -/
def envSignFail : KVStore.KVEnv :=
  { envOk with signAction := fun _ => .error "Signature failed" }

/-- The same wallet behaviour, but no live token is located. -/
def envEmpty : KVStore.KVEnv :=
  { envOk with listOutputs := fun _ => ⟨[], 0, []⟩ }

/-- Legacy module collaborators. -/
def legacyEnv : Legacy.Env :=
  ⟨fun t _ => "unlock-" ++ t.txid, fun _ _ => "newscript", "pkc"⟩

/-- An older live token for a key. -/
def tokA : Legacy.KVToken := ⟨"txA", 0, "scriptA", 1000⟩

/-- A newer live token for the same key. -/
def tokB : Legacy.KVToken := ⟨"txB", 0, "scriptB", 1000⟩

/-- Concrete PushDrop decoding: the three chained value-carrying scripts
decode to the expected owner key with values v1, v2, v3; a foreign script
decodes to a different owner; anything else fails to decode. -/
def hDecode : String → Option Historian.DecodedToken
  | "scrV1" => some ⟨"ownerPub", ["pk", "v1"], "sig1"⟩
  | "scrV2" => some ⟨"ownerPub", ["pk", "v2"], "sig2"⟩
  | "scrV3" => some ⟨"ownerPub", ["pk", "v3"], "sig3"⟩
  | "scrForeign" => some ⟨"otherPub", ["pk", "vx"], "sigx"⟩
  | _ => none

/-- A Historian instance whose crypto collaborators accept every signature,
with the default always-true `validate`. -/
def hCtx : Historian.Ctx :=
  { correctOwnerKey := "ownerPub"
    correctSigningKey := "signPub"
    validate := fun _ => true
    decode := hDecode
    digestFields := fun l => String.join l
    verifySig := fun _ _ _ => true }

/-- The ancestry envelope of a key written with v1, then v2, then v3: the
final token's transaction, whose input embeds v2's transaction, whose input
embeds v1's transaction (which has no further ancestry). -/
def chain3 : Historian.Envelope :=
  .mk "scrV3" (some [.mk "scrV2" (some [.mk "scrV1" none])])

/-- The ancestry envelope of a key written exactly once: no input
ancestry. -/
def chain1 : Historian.Envelope := .mk "scrV1" none

/-- A root envelope that decodes and verifies, with a single malformed
(undecodable) ancestor node. -/
def rootWithJunkChild : Historian.Envelope :=
  .mk "scrV3" (some [.mk "junk" none])

/-- An ancestor node owned by a different key (verification must drop it). -/
def foreignEnv : Historian.Envelope := .mk "scrForeign" none

/-- A well-formed ancestor node carrying v1. -/
def goodEnv : Historian.Envelope := .mk "scrV1" none

end Fixtures

/-! ## Helper lemmas -/

namespace KVStore

theorem createActionCalls_append (a b : List WalletCall) :
    createActionCalls (a ++ b) = createActionCalls a ++ createActionCalls b := by
  induction a with
  | nil => rfl
  | cons c rest ih => cases c <;> simp [createActionCalls, ih]

theorem relinquishCalls_append (a b : List WalletCall) :
    relinquishCalls (a ++ b) = relinquishCalls a ++ relinquishCalls b := by
  induction a with
  | nil => rfl
  | cons c rest ih => cases c <;> simp [relinquishCalls, ih]

theorem encryptValue_createActionCalls (env : KVEnv) (ctx : String) (enc : Bool)
    (key : String) (va : List Nat) :
    createActionCalls (encryptValue env ctx enc key va).2 = [] := by
  cases enc <;> simp [encryptValue, createActionCalls]

theorem encryptValue_relinquishCalls (env : KVEnv) (ctx : String) (enc : Bool)
    (key : String) (va : List Nat) :
    relinquishCalls (encryptValue env ctx enc key va).2 = [] := by
  cases enc <;> simp [encryptValue, relinquishCalls]

theorem attemptSpend_createActionCalls (env : KVEnv) (cargs : CreateActionArgs) (n : Nat) :
    createActionCalls (attemptSpend env cargs n).2 = [cargs] := by
  unfold attemptSpend
  cases env.createAction cargs with
  | error e => rfl
  | ok car =>
    dsimp only
    cases car.signableTransaction with
    | none => rfl
    | some st =>
      dsimp only
      cases env.fromAtomicBEEF st.tx with
      | error e => rfl
      | ok tx =>
        dsimp only
        cases buildSpends env tx (List.range n) with
        | error e => rfl
        | ok spends =>
          dsimp only
          cases env.signAction ⟨st.reference, spends⟩ with
          | error e => rfl
          | ok sres => rfl

theorem attemptSpend_relinquishCalls (env : KVEnv) (cargs : CreateActionArgs) (n : Nat) :
    relinquishCalls (attemptSpend env cargs n).2 = [] := by
  unfold attemptSpend
  cases env.createAction cargs with
  | error e => rfl
  | ok car =>
    dsimp only
    cases car.signableTransaction with
    | none => rfl
    | some st =>
      dsimp only
      cases env.fromAtomicBEEF st.tx with
      | error e => rfl
      | ok tx =>
        dsimp only
        cases buildSpends env tx (List.range n) with
        | error e => rfl
        | ok spends =>
          dsimp only
          cases env.signAction ⟨st.reference, spends⟩ with
          | error e => rfl
          | ok sres => rfl

theorem relinquishAll_createActionCalls (env : KVEnv) (ctx : String)
    (outs : List WalletOutput) :
    createActionCalls (relinquishAll env ctx outs).2 = [] := by
  induction outs with
  | nil => rfl
  | cons o rest ih =>
    simp only [relinquishAll]
    cases env.relinquishOutput ⟨o.outpoint, ctx⟩ with
    | error e => rfl
    | ok u => simpa [createActionCalls] using ih

theorem relinquishAll_ok_relinquishCalls (env : KVEnv) (ctx : String)
    (outs : List WalletOutput) (h : (relinquishAll env ctx outs).1 = .ok ()) :
    relinquishCalls (relinquishAll env ctx outs).2 =
      outs.map (fun o => RelinquishArgs.mk o.outpoint ctx) := by
  induction outs with
  | nil => rfl
  | cons o rest ih =>
    simp only [relinquishAll] at h ⊢
    rcases hE : env.relinquishOutput ⟨o.outpoint, ctx⟩ with e | u
    · rw [hE] at h; simp at h
    · rw [hE] at h
      dsimp only at h ⊢
      simpa [relinquishCalls] using ih h

/-- The result of `listOutputs` on the "entire transactions" include level,
as `set` and `remove` request it. -/
def locateForWrite (env : KVEnv) (ctx key : String) : ListOutputsResult :=
  env.listOutputs ⟨ctx, [key], "entire transactions"⟩

end KVStore

namespace KVStore

theorem set_ok_run (env : KVEnv) (ctx key value : String) (enc : Bool) (v2 : List Nat)
    (r : String)
    (hEnc : (encryptValue env ctx enc key (env.toArray value)).1 = .ok v2)
    (hNZ : (locateForWrite env ctx key).totalOutputs ≠ 0)
    (hOk : (attemptSpend env
        (consolidationArgs ctx key (env.lock [v2] (2, ctx) key) (locateForWrite env ctx key))
        (locateForWrite env ctx key).outputs.length).1 = .ok r) :
    set env ctx enc key value =
      (.ok (r ++ ".0"),
       (encryptValue env ctx enc key (env.toArray value)).2
         ++ [WalletCall.listOutputs ⟨ctx, [key], "entire transactions"⟩]
         ++ (attemptSpend env
              (consolidationArgs ctx key (env.lock [v2] (2, ctx) key) (locateForWrite env ctx key))
              (locateForWrite env ctx key).outputs.length).2) := by
  unfold locateForWrite at hNZ hOk
  unfold set
  rcases hE : encryptValue env ctx enc key (env.toArray value) with ⟨fst, encT⟩
  rw [hE] at hEnc
  dsimp only at hEnc
  subst hEnc
  dsimp only
  rw [if_pos hNZ]
  rcases hA : attemptSpend env
      (consolidationArgs ctx key (env.lock [v2] (2, ctx) key)
        (env.listOutputs ⟨ctx, [key], "entire transactions"⟩))
      (env.listOutputs ⟨ctx, [key], "entire transactions"⟩).outputs.length with ⟨ar, atr⟩
  rw [hA] at hOk
  dsimp only at hOk
  subst hOk
  dsimp only
  simp [locateForWrite, hA, List.append_assoc]

theorem set_fail_run (env : KVEnv) (ctx key value : String) (enc : Bool) (v2 : List Nat)
    (car : CreateActionResult)
    (hEnc : (encryptValue env ctx enc key (env.toArray value)).1 = .ok v2)
    (hNZ : (locateForWrite env ctx key).totalOutputs ≠ 0)
    (hFail : (attemptSpend env
        (consolidationArgs ctx key (env.lock [v2] (2, ctx) key) (locateForWrite env ctx key))
        (locateForWrite env ctx key).outputs.length).1.isOk = false)
    (hRel : (relinquishAll env ctx (locateForWrite env ctx key).outputs).1 = .ok ())
    (hNew : env.createAction (newTokenArgs ctx key (env.lock [v2] (2, ctx) key)) = .ok car) :
    set env ctx enc key value =
      (.ok (car.txid ++ ".0"),
       (encryptValue env ctx enc key (env.toArray value)).2
         ++ [WalletCall.listOutputs ⟨ctx, [key], "entire transactions"⟩]
         ++ (attemptSpend env
              (consolidationArgs ctx key (env.lock [v2] (2, ctx) key) (locateForWrite env ctx key))
              (locateForWrite env ctx key).outputs.length).2
         ++ (relinquishAll env ctx (locateForWrite env ctx key).outputs).2
         ++ [WalletCall.createAction (newTokenArgs ctx key (env.lock [v2] (2, ctx) key))]) := by
  unfold locateForWrite at hNZ hFail hRel
  unfold set
  rcases hE : encryptValue env ctx enc key (env.toArray value) with ⟨fst, encT⟩
  rw [hE] at hEnc
  dsimp only at hEnc
  subst hEnc
  dsimp only
  rw [if_pos hNZ]
  rcases hA : attemptSpend env
      (consolidationArgs ctx key (env.lock [v2] (2, ctx) key)
        (env.listOutputs ⟨ctx, [key], "entire transactions"⟩))
      (env.listOutputs ⟨ctx, [key], "entire transactions"⟩).outputs.length with ⟨ar, atr⟩
  rw [hA] at hFail
  dsimp only at hFail
  cases ar with
  | ok r => simp [Except.isOk, Except.toBool] at hFail
  | error e =>
    dsimp only
    rcases hR : relinquishAll env ctx
        (env.listOutputs ⟨ctx, [key], "entire transactions"⟩).outputs with ⟨rr, rtr⟩
    rw [hR] at hRel
    dsimp only at hRel
    subst hRel
    dsimp only
    rw [hNew]
    dsimp only
    simp [locateForWrite, hA, hR, List.append_assoc]

theorem remove_fail_run (env : KVEnv) (ctx key : String)
    (hNZ : ¬ (locateForWrite env ctx key).totalOutputs = 0)
    (hFail : (attemptSpend env (removalArgs ctx key (locateForWrite env ctx key))
        (locateForWrite env ctx key).outputs.length).1.isOk = false)
    (hRel : (relinquishAll env ctx (locateForWrite env ctx key).outputs).1 = .ok ()) :
    remove env ctx key =
      (.ok none,
       [WalletCall.listOutputs ⟨ctx, [key], "entire transactions"⟩]
         ++ (attemptSpend env (removalArgs ctx key (locateForWrite env ctx key))
              (locateForWrite env ctx key).outputs.length).2
         ++ (relinquishAll env ctx (locateForWrite env ctx key).outputs).2) := by
  unfold locateForWrite at hNZ hFail hRel
  unfold remove
  rw [if_neg hNZ]
  rcases hA : attemptSpend env
      (removalArgs ctx key (env.listOutputs ⟨ctx, [key], "entire transactions"⟩))
      (env.listOutputs ⟨ctx, [key], "entire transactions"⟩).outputs.length with ⟨ar, atr⟩
  rw [hA] at hFail
  dsimp only at hFail
  cases ar with
  | ok r => simp [Except.isOk, Except.toBool] at hFail
  | error e =>
    dsimp only
    rcases hR : relinquishAll env ctx
        (env.listOutputs ⟨ctx, [key], "entire transactions"⟩).outputs with ⟨rr, rtr⟩
    rw [hR] at hRel
    dsimp only at hRel
    subst hRel
    dsimp only
    simp [locateForWrite, hA, hR, List.append_assoc]

end KVStore

/-! ## Claim theorems: Token Consolidation Engine -/

open KVStore in
/-- C1 (amended): For every `LocalKVStore.set` call that finds one or more
existing live tokens and whose consolidation spend succeeds, there is
exactly one `createAction` in the run, it consumes every located token as
an input, and it produces exactly one new output carrying the new value;
the call returns the new outpoint.  (The legacy `kvstore.js` `set` does
*not* satisfy the original claim: it consumes only the most recently listed
token — see the counterexample.) -/
theorem set_collapse_consumes_all_in_one_action
    (env : KVEnv) (ctx key value : String) (enc : Bool) (v2 : List Nat) (r : String)
    (hEnc : (encryptValue env ctx enc key (env.toArray value)).1 = .ok v2)
    (hNZ : (locateForWrite env ctx key).totalOutputs ≠ 0)
    (hOk : (attemptSpend env
        (consolidationArgs ctx key (env.lock [v2] (2, ctx) key) (locateForWrite env ctx key))
        (locateForWrite env ctx key).outputs.length).1 = .ok r) :
    createActionCalls (set env ctx enc key value).2 =
      [consolidationArgs ctx key (env.lock [v2] (2, ctx) key) (locateForWrite env ctx key)] ∧
    (consolidationArgs ctx key (env.lock [v2] (2, ctx) key) (locateForWrite env ctx key)).inputs.map
        (fun i => i.outpoint) =
      (locateForWrite env ctx key).outputs.map (fun o => o.outpoint) ∧
    (consolidationArgs ctx key (env.lock [v2] (2, ctx) key) (locateForWrite env ctx key)).outputs.length
      = 1 ∧
    (set env ctx enc key value).1 = .ok (r ++ ".0") := by
  have hrun := set_ok_run env ctx key value enc v2 r hEnc hNZ hOk
  refine ⟨?_, ?_, rfl, ?_⟩
  · rw [hrun]
    simp [createActionCalls_append, encryptValue_createActionCalls,
      attemptSpend_createActionCalls, createActionCalls]
  · simp [consolidationArgs, List.map_map, Function.comp]
  · rw [hrun]

open KVStore Fixtures in
/-- Witness for C1: on the all-successful wallet with two live tokens, the
single consolidation action consumes both located outpoints and creates one
output. -/
theorem set_collapse_consumes_all_in_one_action_witness :
    createActionCalls (set envOk "c" true "k" "v").2 =
      [consolidationArgs "c" "k" (envOk.lock [[7]] (2, "c") "k") (locateForWrite envOk "c" "k")] ∧
    (consolidationArgs "c" "k" (envOk.lock [[7]] (2, "c") "k") (locateForWrite envOk "c" "k")).inputs.map
        (fun i => i.outpoint) =
      (locateForWrite envOk "c" "k").outputs.map (fun o => o.outpoint) ∧
    (consolidationArgs "c" "k" (envOk.lock [[7]] (2, "c") "k") (locateForWrite envOk "c" "k")).outputs.length
      = 1 ∧
    (set envOk "c" true "k" "v").1 = .ok ("newTx" ++ ".0") :=
  set_collapse_consumes_all_in_one_action envOk "c" "k" "v" true [7] "newTx"
    rfl (by decide) rfl

open KVStore Legacy Fixtures in
/-- Counterexample for C1 as stated: the legacy `kvstore.js` `set`
(lines 242-288), run with two located live tokens for the key, builds an
update action consuming only the single newest token (`txB`), not both, so
not every located token is consumed. -/
theorem legacy_set_consumes_only_newest_cex :
    (kvSet legacyEnv "k" "v" [tokA, tokB] false false).map (fun a => a.inputs.map (fun i => i.txid))
      = .ok ["txB"] ∧
    (["txB"] : List String) ≠ ["txA", "txB"] := by
  constructor
  · rfl
  · decide

open KVStore in
/-- C2 (amended): For every `LocalKVStore.set` call whose consolidation
spend fails at the signing/submission step, the call relinquishes every
attempted input and then *does* issue an additional no-input creation
action in the same call, returning that fresh token's outpoint (the
fall-through at LocalKVStore.ts line 127, confirmed by the unit test). -/
theorem set_failure_relinquishes_then_creates_fallback
    (env : KVEnv) (ctx key value : String) (enc : Bool) (v2 : List Nat)
    (car : CreateActionResult)
    (hEnc : (encryptValue env ctx enc key (env.toArray value)).1 = .ok v2)
    (hNZ : (locateForWrite env ctx key).totalOutputs ≠ 0)
    (hFail : (attemptSpend env
        (consolidationArgs ctx key (env.lock [v2] (2, ctx) key) (locateForWrite env ctx key))
        (locateForWrite env ctx key).outputs.length).1.isOk = false)
    (hRel : (relinquishAll env ctx (locateForWrite env ctx key).outputs).1 = .ok ())
    (hNew : env.createAction (newTokenArgs ctx key (env.lock [v2] (2, ctx) key)) = .ok car) :
    (set env ctx enc key value).1 = .ok (car.txid ++ ".0") ∧
    relinquishCalls (set env ctx enc key value).2 =
      (locateForWrite env ctx key).outputs.map (fun o => RelinquishArgs.mk o.outpoint ctx) ∧
    (createActionCalls (set env ctx enc key value).2).getLast? =
      some (newTokenArgs ctx key (env.lock [v2] (2, ctx) key)) ∧
    (newTokenArgs ctx key (env.lock [v2] (2, ctx) key)).inputs = [] := by
  have hrun := set_fail_run env ctx key value enc v2 car hEnc hNZ hFail hRel hNew
  refine ⟨?_, ?_, ?_, rfl⟩
  · rw [hrun]
  · rw [hrun]
    simp [relinquishCalls_append, encryptValue_relinquishCalls,
      attemptSpend_relinquishCalls, relinquishCalls,
      relinquishAll_ok_relinquishCalls env ctx (locateForWrite env ctx key).outputs hRel]
  · rw [hrun]
    simp [createActionCalls_append, encryptValue_createActionCalls,
      attemptSpend_createActionCalls, relinquishAll_createActionCalls, createActionCalls]

open KVStore Fixtures in
/-- Witness for C2 (amended): on the signing-failure wallet, `set`
relinquishes both located outputs and then issues the no-input fallback
creation, returning its outpoint. -/
theorem set_failure_relinquishes_then_creates_fallback_witness :
    (set envSignFail "c" true "k" "v").1 = .ok ("createTx" ++ ".0") ∧
    relinquishCalls (set envSignFail "c" true "k" "v").2 =
      (locateForWrite envSignFail "c" "k").outputs.map
        (fun o => RelinquishArgs.mk o.outpoint "c") ∧
    (createActionCalls (set envSignFail "c" true "k" "v").2).getLast? =
      some (newTokenArgs "c" "k" (envSignFail.lock [[7]] (2, "c") "k")) ∧
    (newTokenArgs "c" "k" (envSignFail.lock [[7]] (2, "c") "k")).inputs = [] :=
  set_failure_relinquishes_then_creates_fallback envSignFail "c" "k" "v" true [7]
    ⟨"createTx", some ⟨[9], "ref1"⟩⟩ rfl (by decide) rfl rfl rfl

open KVStore Fixtures in
/-- Counterexample for C2 as stated: with two live tokens located and a
failing `signAction`, the same `set` call still issues a second, no-input
creation action (the trace's `createAction` calls have input counts
`[2, 0]`) and completes returning the fresh parallel token's outpoint —
rather than returning without any additional creation action. -/
theorem set_failure_creates_parallel_token_cex :
    (set envSignFail "kvstore-default" true "hello" "world").1 = .ok "createTx.0" ∧
    (createActionCalls (set envSignFail "kvstore-default" true "hello" "world").2).map
      (fun c => c.inputs.length) = [2, 0] := by
  constructor
  · rfl
  · rfl

open KVStore in
/-- C3: For every `set` or `remove` call whose signing/submission step fails
after locating N ≥ 1 tokens, every one of the N originally-located outputs
is relinquished exactly once (the relinquish trace is exactly the located
outpoint list, in order), and the signing failure is not surfaced: `set`
completes normally (with the fallback creation) and `remove` returns
`undefined`. -/
theorem signing_failure_relinquishes_each_located_once
    (env : KVEnv) (ctx key value : String) (enc : Bool) (v2 : List Nat)
    (car : CreateActionResult)
    (hEnc : (encryptValue env ctx enc key (env.toArray value)).1 = .ok v2)
    (hNZ : (locateForWrite env ctx key).totalOutputs ≠ 0)
    (hFailSet : (attemptSpend env
        (consolidationArgs ctx key (env.lock [v2] (2, ctx) key) (locateForWrite env ctx key))
        (locateForWrite env ctx key).outputs.length).1.isOk = false)
    (hRel : (relinquishAll env ctx (locateForWrite env ctx key).outputs).1 = .ok ())
    (hNew : env.createAction (newTokenArgs ctx key (env.lock [v2] (2, ctx) key)) = .ok car)
    (hFailRemove : (attemptSpend env (removalArgs ctx key (locateForWrite env ctx key))
        (locateForWrite env ctx key).outputs.length).1.isOk = false) :
    (relinquishCalls (set env ctx enc key value).2 =
        (locateForWrite env ctx key).outputs.map (fun o => RelinquishArgs.mk o.outpoint ctx) ∧
      (set env ctx enc key value).1 = .ok (car.txid ++ ".0")) ∧
    (relinquishCalls (remove env ctx key).2 =
        (locateForWrite env ctx key).outputs.map (fun o => RelinquishArgs.mk o.outpoint ctx) ∧
      (remove env ctx key).1 = .ok none) := by
  have hrunS := set_fail_run env ctx key value enc v2 car hEnc hNZ hFailSet hRel hNew
  have hrunR := remove_fail_run env ctx key hNZ hFailRemove hRel
  refine ⟨⟨?_, ?_⟩, ⟨?_, ?_⟩⟩
  · rw [hrunS]
    simp [relinquishCalls_append, encryptValue_relinquishCalls,
      attemptSpend_relinquishCalls, relinquishCalls,
      relinquishAll_ok_relinquishCalls env ctx (locateForWrite env ctx key).outputs hRel]
  · rw [hrunS]
  · rw [hrunR]
    simp [relinquishCalls_append, attemptSpend_relinquishCalls, relinquishCalls,
      relinquishAll_ok_relinquishCalls env ctx (locateForWrite env ctx key).outputs hRel]
  · rw [hrunR]

open KVStore Fixtures in
/-- Witness for C3: on the signing-failure wallet with two located tokens,
both `set` and `remove` relinquish exactly the two located outpoints, once
each, and neither surfaces the failure. -/
theorem signing_failure_relinquishes_each_located_once_witness :
    (relinquishCalls (set envSignFail "c" true "k" "v").2 =
        (locateForWrite envSignFail "c" "k").outputs.map
          (fun o => RelinquishArgs.mk o.outpoint "c") ∧
      (set envSignFail "c" true "k" "v").1 = .ok ("createTx" ++ ".0")) ∧
    (relinquishCalls (remove envSignFail "c" "k").2 =
        (locateForWrite envSignFail "c" "k").outputs.map
          (fun o => RelinquishArgs.mk o.outpoint "c") ∧
      (remove envSignFail "c" "k").1 = .ok none) :=
  signing_failure_relinquishes_each_located_once envSignFail "c" "k" "v" true [7]
    ⟨"createTx", some ⟨[9], "ref1"⟩⟩ rfl (by decide) rfl rfl rfl rfl

open KVStore in
/-- C4: For every `get` call on which locate returns more than one live
token, `get` throws the ambiguous-state error rather than returning any
value. -/
theorem get_multiple_tokens_throws_ambiguous
    (env : KVEnv) (ctx : String) (enc : Bool) (key : String) (dflt : Option String)
    (h : 1 < (env.listOutputs ⟨ctx, [key], "locking scripts"⟩).outputs.length) :
    (KVStore.get env ctx enc key dflt).1 = .error ambiguousMsg := by
  unfold KVStore.get
  dsimp only
  rcases hout : (env.listOutputs ⟨ctx, [key], "locking scripts"⟩).outputs with _ | ⟨a, _ | ⟨b, tl⟩⟩
  · rw [hout] at h; simp at h
  · rw [hout] at h; simp at h
  · rfl

open KVStore Fixtures in
/-- Witness for C4: with two live tokens located, `get` throws the
ambiguous-state error. -/
theorem get_multiple_tokens_throws_ambiguous_witness :
    (KVStore.get envOk "c" true "k" (some "d")).1 = .error ambiguousMsg :=
  get_multiple_tokens_throws_ambiguous envOk "c" true "k" (some "d") (by decide)

open KVStore in
/-- C5 (amended): For every `LocalKVStore.remove` call where locate finds
zero live tokens, `remove` returns immediately with no identifier and no
error, issuing no wallet call beyond the locate itself.  (The legacy
`kvstore.js` `remove` instead throws `ERR_NO_TOKEN` — see the
counterexample.) -/
theorem remove_missing_key_is_noop (env : KVEnv) (ctx key : String)
    (h : (locateForWrite env ctx key).totalOutputs = 0) :
    remove env ctx key =
      (.ok none, [WalletCall.listOutputs ⟨ctx, [key], "entire transactions"⟩]) := by
  unfold locateForWrite at h
  unfold remove
  rw [if_pos h]

open KVStore Fixtures in
/-- Witness for C5 (amended): on the empty wallet, `remove` is a pure no-op
returning nothing. -/
theorem remove_missing_key_is_noop_witness :
    remove envEmpty "c" "k" =
      (.ok none, [WalletCall.listOutputs ⟨"c", ["k"], "entire transactions"⟩]) :=
  remove_missing_key_is_noop envEmpty "c" "k" rfl

open Legacy Fixtures in
/-- Counterexample for C5 as stated: the legacy `kvstore.js` `remove`
(lines 326-331) with zero located tokens does not return silently — it
throws `ERR_NO_TOKEN`. -/
theorem legacy_remove_missing_key_throws_cex :
    kvRemove legacyEnv "k" [] =
      .error ⟨"The item did not exist, no item was deleted.", some "ERR_NO_TOKEN"⟩ := by
  rfl

open KVStore in
/-- C10: On every execution path, `get` issues no mutating wallet call — it
never creates an action, signs, or relinquishes an output; its trace
contains only `listOutputs` and `decrypt` calls. -/
theorem get_issues_no_mutating_calls (env : KVEnv) (ctx : String) (enc : Bool)
    (key : String) (dflt : Option String) :
    ((KVStore.get env ctx enc key dflt).2).all (fun c => !c.isMutating) = true := by
  unfold KVStore.get
  dsimp only
  rcases hout : (env.listOutputs ⟨ctx, [key], "locking scripts"⟩).outputs with _ | ⟨o, _ | ⟨b, tl⟩⟩
  · rfl
  · dsimp only
    rcases hd : decodeSingle env o with _ | f0
    · rfl
    · cases enc with
      | false => rfl
      | true =>
        dsimp only
        rcases hdec : env.decrypt ⟨(2, ctx), key, f0⟩ with e | pt <;> rfl
  · rfl

/-! ## Claim theorems: Lineage Reconstructor -/

namespace Historian

theorem headStep_succ (h : Ctx) (e : Envelope) (d : Nat) :
    headStep h e (d + 1) = .ok [] := by
  unfold headStep
  rw [if_neg (Nat.succ_ne_zero d)]

theorem headStep_ok_eq_nil (h : Ctx) (e : Envelope) (d : Nat) (L : List String)
    (he : headStep h e d = .ok L) : L = [] := by
  unfold headStep at he
  split at he
  · split at he
    · split at he
      · simp at he
      · simp at he; exact he
    · simp at he; exact he
  · simp at he; exact he

theorem decodeTokenValue_some_checks (h : Ctx) (e : Envelope) (v : String)
    (hd : decodeTokenValue h e = some v) :
    ∃ dt, h.decode e.outputScript = some dt ∧
      dt.lockingPublicKey = h.correctOwnerKey ∧
      h.verifySig (h.digestFields dt.fields) dt.signature h.correctSigningKey = true ∧
      dt.fields.get? 1 = some v := by
  unfold decodeTokenValue at hd
  rcases hdec : h.decode e.outputScript with _ | dt
  · rw [hdec] at hd; simp at hd
  · rw [hdec] at hd
    dsimp only at hd
    by_cases h1 : dt.lockingPublicKey ≠ h.correctOwnerKey
    · rw [if_pos h1] at hd; simp at hd
    · rw [if_neg h1] at hd
      by_cases h2 : h.verifySig (h.digestFields dt.fields) dt.signature h.correctSigningKey = false
      · rw [if_pos h2] at hd; simp at hd
      · rw [if_neg h2] at hd
        refine ⟨dt, rfl, not_ne_iff.mp h1, ?_, hd⟩
        revert h2
        cases h.verifySig (h.digestFields dt.fields) dt.signature h.correctSigningKey <;> simp

/-- Strong-induction core for the membership lemmas: every value in a
normally-returned `interpret` (resp. `interpretInputs`) run is the
`decodeTokenValue` of some node of the envelope (resp. of some listed
envelope). -/
theorem mem_strong (n : Nat) :
    (∀ (h : Ctx) (e : Envelope), sizeOf e ≤ n → ∀ (d : Nat) (vs : List String),
       interpret h e d = .ok vs →
       ∀ v ∈ vs, ∃ sub, IsNodeOf sub e ∧ decodeTokenValue h sub = some v) ∧
    (∀ (h : Ctx) (l : List Envelope), sizeOf l ≤ n → ∀ (d : Nat) (vs : List String),
       interpretInputs h l d = .ok vs →
       ∀ v ∈ vs, ∃ c ∈ l, ∃ sub, IsNodeOf sub c ∧ decodeTokenValue h sub = some v) := by
  induction n with
  | zero =>
    constructor
    · intro h e hsize
      exfalso
      rcases e with ⟨s, i⟩
      simp at hsize
    · intro h l hsize
      exfalso
      cases l <;> simp at hsize
  | succ n ih =>
    constructor
    · intro h e hsize d vs he
      rcases e with ⟨s, inputs⟩
      simp only [interpret] at he
      rcases hh : headStep h (.mk s inputs) d with err | L
      · rw [hh] at he; simp at he
      · rw [hh] at he
        dsimp only at he
        have hL : L = [] := headStep_ok_eq_nil h _ d L hh
        subst hL
        cases inputs with
        | none =>
          dsimp only at he
          have hvs : vs = [] := by injection he with h2; exact h2.symm
          intro v hv
          rw [hvs] at hv
          simp at hv
        | some l =>
          dsimp only at he
          by_cases hlen : l.length = 0
          · rw [if_pos hlen] at he
            have hvs : vs = [] := by injection he with h2; exact h2.symm
            intro v hv
            rw [hvs] at hv
            simp at hv
          · rw [if_neg hlen] at he
            rcases hi : interpretInputs h l d with err2 | rest
            · rw [hi] at he; simp at he
            · rw [hi] at he
              dsimp only at he
              have hvs : vs = rest := by injection he with h2; simpa using h2.symm
              have hlsize : sizeOf l ≤ n := by simp at hsize; omega
              intro v hv
              rw [hvs] at hv
              obtain ⟨c, hc, sub, hsub, hdecv⟩ := ih.2 h l hlsize d rest hi v hv
              exact ⟨sub, IsNodeOf.child s hc hsub, hdecv⟩
    · intro h l hsize d vs he
      cases l with
      | nil =>
        simp only [interpretInputs] at he
        have hvs : vs = [] := by injection he with h2; exact h2.symm
        intro v hv
        rw [hvs] at hv
        simp at hv
      | cons ie tl =>
        simp only [interpretInputs] at he
        simp at hsize
        have hie : sizeOf ie ≤ n := by omega
        have htl : sizeOf tl ≤ n := by omega
        rcases hp : interpret h ie (d + 1) with err | prev
        · rw [hp] at he; simp at he
        · rw [hp] at he
          dsimp only at he
          rcases hr : interpretInputs h tl d with err2 | rest
          · rw [hr] at he; simp at he
          · rw [hr] at he
            dsimp only at he
            have hvs : vs = (match decodeTokenValue h ie with
                | some tv => if tv ≠ "" ∧ h.validate tv then [tv] else []
                | none => []) ++ prev ++ rest := by injection he with h2; exact h2.symm
            intro v hv
            rw [hvs] at hv
            rcases List.mem_append.mp hv with hv12 | hv3
            · rcases List.mem_append.mp hv12 with hv1 | hv2
              · rcases hdec : decodeTokenValue h ie with _ | tv
                · rw [hdec] at hv1; simp at hv1
                · rw [hdec] at hv1
                  dsimp only at hv1
                  by_cases hcond : tv ≠ "" ∧ h.validate tv = true
                  · rw [if_pos hcond] at hv1
                    have hveq : v = tv := by simpa using hv1
                    subst hveq
                    exact ⟨ie, List.mem_cons_self ie tl, ie, IsNodeOf.refl ie, hdec⟩
                  · rw [if_neg hcond] at hv1; simp at hv1
              · obtain ⟨sub, hns, hdecv⟩ := ih.1 h ie hie (d + 1) prev hp v hv2
                exact ⟨ie, List.mem_cons_self ie tl, sub, hns, hdecv⟩
            · obtain ⟨c, hc, sub, hns, hdecv⟩ := ih.2 h tl htl d rest hr v hv3
              exact ⟨c, List.mem_cons_of_mem ie hc, sub, hns, hdecv⟩

/-- Every value in a normally-returned reconstruction is the decoded,
verified value of some node of the envelope. -/
theorem interpret_mem (h : Ctx) (e : Envelope) (d : Nat) (vs : List String)
    (he : interpret h e d = .ok vs) :
    ∀ v ∈ vs, ∃ sub, IsNodeOf sub e ∧ decodeTokenValue h sub = some v :=
  (mem_strong (sizeOf e)).1 h e (Nat.le_refl _) d vs he

theorem interpret_drop_bad (h : Ctx) (s : String) (bad : Envelope)
    (rest : List Envelope) (d : Nat)
    (hdec : decodeTokenValue h bad = none)
    (hbi : bad.inputs = none) :
    interpret h (.mk s (some (bad :: rest))) d = interpret h (.mk s (some rest)) d := by
  rcases bad with ⟨sb, bi⟩
  simp only [Envelope.inputs] at hbi
  subst hbi
  have hbadrun : interpret h (.mk sb none) (d + 1) = .ok [] := by
    simp only [interpret]
    rw [headStep_succ]
  have hcongr : headStep h (.mk s (some (Envelope.mk sb none :: rest))) d
      = headStep h (.mk s (some rest)) d := rfl
  simp only [interpret]
  rw [hcongr]
  rcases hh : headStep h (.mk s (some rest)) d with err | L
  · rfl
  · have hL : L = [] := headStep_ok_eq_nil h _ d L hh
    subst hL
    simp only [interpretInputs, hdec, hbadrun]
    cases rest with
    | nil => simp [interpretInputs]
    | cons r rs =>
      rcases hri : interpretInputs h (r :: rs) d with err2 | rest2 <;> simp [hri]

end Historian

open Historian Fixtures in
/-- C6 (code evaluation): writing v1, v2, v3 in sequence and reconstructing
from the final token's envelope does *not* yield `[v3, v2, v1]` — `interpret`
throws a `TypeError` at depth 0 because line 29 calls the undefined method
`this.isValid` (the constructor stores the predicate as `this.validate`).
The same happens for a key written once, instead of yielding `[v1]`. -/
theorem interpret_history_roundtrip_fails :
    interpret hCtx chain3 0 = .error isValidTypeError ∧
    interpret hCtx chain1 0 = .error isValidTypeError := by
  constructor
  · simp only [chain3, interpret]
    have h2 : headStep hCtx (.mk "scrV3" (some [.mk "scrV2" (some [.mk "scrV1" none])])) 0 =
        .error isValidTypeError := rfl
    rw [h2]
  · simp only [chain1, interpret]
    have h2 : headStep hCtx (.mk "scrV1" none) 0 = .error isValidTypeError := rfl
    rw [h2]

open Historian Fixtures in
/-- C7 (code evaluation): history reconstruction does *not* always return
normally: on an envelope whose root output decodes and verifies (a
perfectly well-formed envelope), `interpret` throws the `this.isValid`
`TypeError` at depth 0 instead of continuing into the malformed child. -/
theorem interpret_throws_on_valid_root :
    interpret hCtx rootWithJunkChild 0 = .error isValidTypeError := by
  simp only [rootWithJunkChild, interpret]
  have h2 : headStep hCtx (.mk "scrV3" (some [.mk "junk" none])) 0 =
      .error isValidTypeError := rfl
  rw [h2]

open Overlay in
/-- C8 (code evaluation): the `findFromOverlay` history walk of kvstore.js
never reaches the base case the claim describes.  With `currentInput` equal
to an empty object (empty input set), the loop guard
`Object.keys(currentInput) !== []` is still true (reference comparison) and
the body's throw is caught by `continue` with unchanged state, so no amount
of fuel makes the walk finish — the traversal does not terminate.  With
`currentInput` equal to `undefined` (absent input set), the guard itself
throws an uncaught TypeError on its first evaluation, so `findFromOverlay`
exits abnormally instead of reaching the base case. -/
theorem overlay_history_walk_never_reaches_base_case (h : Historian.Ctx) :
    (∀ fuel acc, walkF h fuel (.nodes []) acc = none) ∧
    (∀ fuel acc, walkF h (fuel + 1) .undef acc =
      some (.error ⟨"Cannot convert undefined or null to object", none⟩)) := by
  constructor
  · intro fuel
    induction fuel with
    | zero => intro acc; rfl
    | succ n ih => intro acc; exact ih acc
  · intro fuel acc
    rfl

open Historian in
/-- C9: (1) `decodeTokenValue` yields a value only when the decoded owner
key equals the expected owner key and the signature verifies under the
expected signing key over the digest of the fields; (2) every value in a
normally-returned reconstruction comes from some node of the envelope whose
`decodeTokenValue` succeeded (hence passed both checks); (3) a candidate
entry failing either check is silently dropped: reconstruction of the
remaining siblings is unchanged, with no error raised. -/
theorem history_value_requires_owner_and_signature :
    (∀ (h : Ctx) (e : Envelope) (v : String),
       decodeTokenValue h e = some v →
       ∃ dt, h.decode e.outputScript = some dt ∧
         dt.lockingPublicKey = h.correctOwnerKey ∧
         h.verifySig (h.digestFields dt.fields) dt.signature h.correctSigningKey = true ∧
         dt.fields.get? 1 = some v) ∧
    (∀ (h : Ctx) (e : Envelope) (d : Nat) (vs : List String),
       interpret h e d = .ok vs →
       ∀ v ∈ vs, ∃ sub, IsNodeOf sub e ∧ decodeTokenValue h sub = some v) ∧
    (∀ (h : Ctx) (s : String) (bad : Envelope) (rest : List Envelope) (d : Nat),
       decodeTokenValue h bad = none →
       bad.inputs = none →
       interpret h (.mk s (some (bad :: rest))) d = interpret h (.mk s (some rest)) d) :=
  ⟨decodeTokenValue_some_checks, interpret_mem, interpret_drop_bad⟩

open Historian Fixtures in
/-- Witness for C9: dropping a concrete foreign-owner ancestor leaves the
reconstruction of its valid sibling unchanged. -/
theorem history_value_requires_owner_and_signature_witness :
    interpret hCtx (.mk "sroot" (some [foreignEnv, goodEnv])) 3 =
      interpret hCtx (.mk "sroot" (some [goodEnv])) 3 :=
  history_value_requires_owner_and_signature.2.2 hCtx "sroot" foreignEnv [goodEnv] 3 rfl rfl
